import Mathlib

/-!
# Verification of the `simples3` bucket client

This file shallowly embeds the core of `simples3/bucket.py` (an S3 client
library written in Python 2) and proves, or refutes, the frozen claims about
it.  Python byte/text strings are modelled as `List Char` (the code only ever
manipulates ASCII text except where it explicitly UTF-8-encodes, which we
model at the byte level), dictionaries as association lists in insertion
order, and exceptions as `Except` values.  Library calls that are external to
the repository (`hmac`/`hashlib` digests, the wall clock) are abstracted as
function parameters; everything else is translated directly from the source.
-/

set_option maxRecDepth 10000

/-- Python strings are byte/character sequences; we model them as `List Char`. -/
abbrev Str := List Char

/-- ASCII lower-casing of one character, as Python 2 `str.lower` does per byte. -/
def lowerChar (c : Char) : Char :=
  if 'A' ≤ c ∧ c ≤ 'Z' then Char.ofNat (c.toNat + 32) else c

/-- Python `str.lower`. -/
def lowerStr (s : Str) : Str := s.map lowerChar

/-- Python `s.startswith(pat)`. -/
def pyStartswith (s pat : Str) : Bool := decide (s.take pat.length = pat)

/-- Python `s.find(pat)` / `s.index(pat)`: index of the first occurrence of
`pat` in `s` (`none` models `find` returning `-1`, and `index` raising
`ValueError`). -/
def firstIdx (pat : Str) : Str → Option Nat
  | [] => if pat = [] then some 0 else none
  | c :: s' =>
    if (c :: s').take pat.length = pat then some 0
    else (firstIdx pat s').map (· + 1)

/-- Python slice `s[a:b]` (for nonnegative bounds). -/
def pySlice (s : Str) (a b : Nat) : Str := (s.take b).drop a

/-- Python `s.replace(old, new)`, fuelled so that the recursion is
structural: each step consumes at least one character, so with fuel
`s.length` the fuel runs out exactly when the string does (the fuel-zero
case returns the empty remainder unchanged, which is what the loop does on
an empty string). -/
def pyReplaceF (old new : Str) : Nat → Str → Str
  | 0, s => s
  | _ + 1, [] => []
  | fuel + 1, c :: s' =>
    if (c :: s').take old.length = old ∧ old ≠ [] then
      new ++ pyReplaceF old new fuel ((c :: s').drop old.length)
    else
      c :: pyReplaceF old new fuel s'

/-- Python `s.replace(old, new)`: leftmost, non-overlapping replacement. -/
def pyReplace (old new : Str) (s : Str) : Str :=
  pyReplaceF old new s.length s

/-- Python `dict.get(k)` on an association list (keys are unique in a dict, so
first match suffices). -/
def pyLookup (hs : List (Str × Str)) (k : Str) : Option Str :=
  (hs.find? (fun p => decide (p.1 = k))).map (·.2)

/-- Python `d[k] = v` on an association list: replace in place or append. -/
def pySetItem (hs : List (Str × Str)) (k v : Str) : List (Str × Str) :=
  match hs with
  | [] => [(k, v)]
  | (k', v') :: t => if k' = k then (k, v) :: t else (k', v') :: pySetItem t k v

/-- Parse a nonempty all-digit string as a number, as Python `int` does on the
strings matched by `\d+`. -/
def pyIntDigits (s : Str) : Nat :=
  s.foldl (fun acc c => acc * 10 + (c.toNat - '0'.toNat)) 0

/-- UTF-8 encoding of a single code point (Python `unicode.encode("utf-8")`,
byte level). -/
def utf8Char (c : Char) : List Nat :=
  let n := c.toNat
  if n < 0x80 then [n]
  else if n < 0x800 then [0xC0 + n / 64, 0x80 + n % 64]
  else if n < 0x10000 then
    [0xE0 + n / 4096, 0x80 + (n / 64) % 64, 0x80 + n % 64]
  else
    [0xF0 + n / 262144, 0x80 + (n / 4096) % 64, 0x80 + (n / 64) % 64,
     0x80 + n % 64]

/-- UTF-8 encoding of a string as a byte sequence. -/
def utf8 (s : Str) : List Nat := s.flatMap utf8Char

/-- Upper-case hexadecimal digit, as `urllib.quote` emits. -/
def hexDigit (n : Nat) : Char := (("0123456789ABCDEF").data).getD n 'X'

/-- The characters Python 2 `urllib.quote` never encodes
(`always_safe` = letters, digits, `_.-`), plus the extra safe character `/`
passed by `aws_urlquote`. -/
def quoteSafeByte (b : Nat) : Bool :=
  decide ((65 ≤ b ∧ b ≤ 90) ∨ (97 ≤ b ∧ b ≤ 122) ∨ (48 ≤ b ∧ b ≤ 57) ∨
    b = 95 ∨ b = 46 ∨ b = 45 ∨ b = 47)

/-- `urllib.quote(value, "/")` on one byte. -/
def quoteByte (b : Nat) : Str :=
  if quoteSafeByte b then [Char.ofNat b]
  else ['%', hexDigit (b / 16), hexDigit (b % 16)]

/-- `simples3.bucket.aws_urlquote`: UTF-8-encode, then percent-encode every
byte outside the safe set, leaving `/` literal. -/
def aws_urlquote (value : Str) : Str := ((utf8 value).map quoteByte).flatten

/-- `urllib.quote_plus` on one byte (`safe=''`: space becomes `+`, `/` is
encoded). -/
def quotePlusByte (b : Nat) : Str :=
  if b = 32 then ['+']
  else if quoteSafeByte b ∧ b ≠ 47 then [Char.ofNat b]
  else ['%', hexDigit (b / 16), hexDigit (b % 16)]

/-- `urllib.quote_plus` as used by `S3Bucket.make_url` on query items. -/
def quote_plus (value : Str) : Str := ((utf8 value).map quotePlusByte).flatten

/-- The base64 alphabet. -/
def b64Alphabet : Str :=
  ("ABCDEFGHIJKLMNOPQRSTUVWXYZabcdefghijklmnopqrstuvwxyz0123456789+/").data

/-- Plain base64 of a byte sequence (no line breaks). -/
def b64 : List Nat → Str
  | [] => []
  | [a] =>
    [b64Alphabet.getD (a / 4) 'X', b64Alphabet.getD (a % 4 * 16) 'X', '=', '=']
  | [a, b] =>
    [b64Alphabet.getD (a / 4) 'X', b64Alphabet.getD (a % 4 * 16 + b / 16) 'X',
     b64Alphabet.getD (b % 16 * 4) 'X', '=']
  | a :: b :: c :: rest =>
    [b64Alphabet.getD (a / 4) 'X', b64Alphabet.getD (a % 4 * 16 + b / 16) 'X',
     b64Alphabet.getD (b % 16 * 4 + c / 64) 'X', b64Alphabet.getD (c % 64) 'X']
      ++ b64 rest

/-- Fuelled worker for `chunks76`: each step consumes 76 characters, so
fuel `s.length` suffices, and at fuel zero the string is empty and `[s]` is
the correct answer. -/
def chunks76F : Nat → Str → List Str
  | 0, s => [s]
  | fuel + 1, s =>
    if s.length ≤ 76 then [s]
    else s.take 76 :: chunks76F fuel (s.drop 76)

/-- Split into lines of at most 76 characters, as MIME base64 does. -/
def chunks76 (s : Str) : List Str := chunks76F s.length s

/-- Python 2 `str.encode("base64")` (`base64.encodestring`): 76-character
lines, each terminated by a newline. -/
def pyEncodeBase64 (bytes : List Nat) : Str :=
  ((chunks76 (b64 bytes)).map (· ++ ['\n'])).flatten

/-- Lower-case a header name (`header = header.lower()`). -/
def lowerPair (p : Str × Str) : Str × Str := (lowerStr p.1, p.2)

/-- The `header.startswith("x-amz-")` test on an already lower-cased name. -/
def isAmzName (p : Str × Str) : Bool := pyStartswith p.1 (("x-amz-").data)

/-- The lower-cased `x-amz-` header/value pairs, in iteration order. -/
def amzPairs (headers : List (Str × Str)) : List (Str × Str) :=
  (headers.map lowerPair).filter isAmzName

/-- One output line of `_amz_canonicalize`: `key:v1,...,vn\n`, the values in
iteration order (the grouping dict appends via `setdefault(...).append`). -/
def amzLine (amz : List (Str × Str)) (k : Str) : Str :=
  k ++ [':'] ++
    (List.intercalate ([','])
      ((amz.filter (fun p => decide (p.1 = k))).map Prod.snd)) ++ ['\n']

/-- `simples3.bucket._amz_canonicalize`, with the Python dict modelled as an
association list in iteration order: lower-case the names, keep those starting
with `x-amz-`, group values by name in iteration order, and emit
`name:v1,...,vn\n` lines sorted by name. -/
def _amz_canonicalize (headers : List (Str × Str)) : Str :=
  let amz := amzPairs headers
  let keys := List.insertionSort (· ≤ ·) (amz.map Prod.fst).dedup
  (keys.map (amzLine amz)).flatten

/-- `simples3.bucket.metadata_headers`. -/
def metadata_headers (metadata : List (Str × Str)) : List (Str × Str) :=
  metadata.map (fun p => (("X-AMZ-Meta-").data ++ p.1, p.2))

/-- `simples3.bucket.headers_metadata`. -/
def headers_metadata (headers : List (Str × Str)) : List (Str × Str) :=
  headers.filterMap (fun p =>
    if pyStartswith (lowerStr p.1) (("x-amz-meta-").data) then
      some (p.1.drop 11, p.2)
    else none)

/-- `simples3.bucket.aws_md5` with the `hashlib.md5` digest abstracted:
base64 of the digest, trailing newline trimmed by `[:-1]`. -/
def aws_md5 (md5fn : List Nat → List Nat) (data : Str) : Str :=
  (pyEncodeBase64 (md5fn (utf8 data))).dropLast

/-- `S3Bucket.amazon_s3_base`. -/
def amazon_s3_base : Str := ("https://s3.amazonaws.com/").data

/-- `S3Bucket.__init__`: the base URL derived from the bucket name when no
explicit `base_url` is supplied. -/
def default_base_url (name : Str) : Str := amazon_s3_base ++ aws_urlquote name

/-- `S3Bucket.sign_description` with the `hmac`/`sha1` primitive abstracted:
`hmac.new(secret_key, desc.encode("utf-8"), sha1).digest().encode("base64")[:-1]`. -/
def sign_description (hmacSha1 : List Nat → List Nat → List Nat)
    (secret_key desc : Str) : Str :=
  (pyEncodeBase64 (hmacSha1 (utf8 secret_key) (utf8 desc))).dropLast

/-- `S3Bucket.canonicalized_resource`.  `key`/`bucket` are `Option Str` with
`none` for Python `None`; the empty string is falsy in Python, hence the
explicit emptiness tests. -/
def canonicalized_resource (name : Str) (key : Option Str)
    (bucket : Option Str) : Str :=
  let res : Str := ['/']
  let res := match bucket with
    | none => res ++ aws_urlquote name
    | some b => if b = [] then res else res ++ aws_urlquote b
  let res := res ++ ['/']
  match key with
  | none => res
  | some k => if k = [] then res else res ++ aws_urlquote k

/-- `S3Bucket.make_description` (the unused `data` parameter is dropped). -/
def make_description (name : Str) (method : Str) (key : Option Str)
    (headers : List (Str × Str)) (subresource : Option Str)
    (bucket : Option Str) : Str :=
  let res := canonicalized_resource name key bucket
  let res := match subresource with
    | none => res
    | some sr => if sr = [] then res else res ++ ['?'] ++ sr
  method ++ ['\n'] ++ (pyLookup headers (("Content-MD5").data)).getD [] ++ ['\n']
    ++ (pyLookup headers (("Content-Type").data)).getD [] ++ ['\n']
    ++ (pyLookup headers (("Date").data)).getD [] ++ ['\n']
    ++ _amz_canonicalize headers ++ res

/-- `S3Bucket.get_request_signature`. -/
def get_request_signature (hmacSha1 : List Nat → List Nat → List Nat)
    (secret_key name : Str) (method : Str) (key : Option Str)
    (headers : List (Str × Str)) (subresource : Option Str)
    (bucket : Option Str) : Str :=
  sign_description hmacSha1 secret_key
    (make_description name method key headers subresource bucket)

/-- `S3Bucket.make_url`. -/
def make_url (base_url : Str) (key : Option Str) (args : List (Str × Str))
    (arg_sep : Str) : Str :=
  let url := base_url ++ ['/']
  let url := url ++ (match key with
    | none => []
    | some k => if k = [] then [] else aws_urlquote k)
  if args = [] then url
  else
    url ++ ['?'] ++
      List.intercalate arg_sep
        (args.map (fun p => quote_plus p.1 ++ ['='] ++ quote_plus p.2))

/-- An outbound HTTP request as built by `S3Bucket.new_request`
(`AnyMethodRequest`). -/
structure PyRequest where
  method : Str
  url : Str
  headers : List (Str × Str)
  data : Option Str
deriving DecidableEq

/-- The header-preparation steps of `S3Bucket.new_request` before signing:
set `Content-MD5` from the body when a truthy body is present, and default
the `Date` header to the current RFC-822 time (`date`, abstracting
`time.strftime(rfc822_fmt, time.gmtime())`). -/
def new_request_headers (md5fn : List Nat → List Nat) (data : Option Str)
    (headers : List (Str × Str)) (date : Str) : List (Str × Str) :=
  let h1 := match data with
    | none => headers
    | some d =>
      if d ≠ [] ∧ (pyLookup headers (("Content-MD5").data)).isNone then
        pySetItem headers (("Content-MD5").data) (aws_md5 md5fn d)
      else headers
  if (pyLookup h1 (("Date").data)).isNone then
    pySetItem h1 (("Date").data) date
  else h1

/-- `S3Bucket.new_request`. -/
def new_request (hmacSha1 : List Nat → List Nat → List Nat)
    (md5fn : List Nat → List Nat) (access_key secret_key name base_url : Str)
    (method : Str) (key : Option Str) (args : List (Str × Str))
    (data : Option Str) (headers : List (Str × Str)) (date : Str) :
    PyRequest :=
  let hs := new_request_headers md5fn data headers date
  let hs2 :=
    if (pyLookup hs (("Authorization").data)).isNone then
      pySetItem hs (("Authorization").data)
        (("AWS ").data ++ access_key ++ [':'] ++
          get_request_signature hmacSha1 secret_key name method key hs none none)
    else hs
  { method := method, url := make_url base_url key args ([';']),
    headers := hs2, data := data }

/-- The query-string authentication descriptor built by `S3Bucket.url_for`
(`"GET\n" + "\n" + "\n" + expire_desc + "\n" + canonicalized_resource(key)`). -/
def url_for_auth_descriptor (name : Str) (key : Option Str)
    (expire_desc : Str) : Str :=
  ("GET\n\n\n").data ++ expire_desc ++ ['\n'] ++
    canonicalized_resource name key none

/-- `S3Bucket.url_for`.  The conversion of the `expire` argument to an epoch
string goes through `datetime`/`time.mktime` (standard library); it is
abstracted as the already-formatted `expire_desc`. -/
def url_for (hmacSha1 : List Nat → List Nat → List Nat)
    (access_key secret_key name base_url : Str) (key : Option Str)
    (authenticated : Bool) (expire_desc : Str) : Str :=
  if authenticated then
    let args := [((("AWSAccessKeyId").data : Str), access_key),
                 ((("Expires").data : Str), expire_desc),
                 ((("Signature").data : Str),
                  sign_description hmacSha1 secret_key
                    (url_for_auth_descriptor name key expire_desc))]
    make_url base_url key args (['&'])
  else
    make_url base_url key [] ([';'])

/-- A `datetime.datetime` value as produced by `strptime` (the formats used
here never set microseconds, so they are omitted as always zero). -/
structure PyDateTime where
  year : Nat
  month : Nat
  day : Nat
  hour : Nat
  minute : Nat
  second : Nat
deriving DecidableEq

/-- An HTTP response as seen through `urllib2` (`code`, the headers from
`response.info()`, and the body stream). -/
structure PyResponse where
  code : Nat
  headers : List (Str × Str)
  body : Option Str
deriving DecidableEq

/-- One transport outcome: either a response, or a raised
`urllib2.HTTPError`/`URLError` carrying an optional status code and an
optional readable error body. -/
inductive Outcome where
  | resp (r : PyResponse)
  | err (code : Option Nat) (body : Option Str)
deriving DecidableEq

/-- The payload of `simples3.bucket.S3Error` (of its `extra` fields only the
status code is consulted by the client logic; `reason`/`filename` are carried
the same way and never read). -/
structure S3Err where
  code : Option Nat
  msg : Str
deriving DecidableEq

/-- `S3Error.from_urllib`: extract the status code, and the text between
`<Message>` and `</Message>` from the error body when both tags are present,
truncated to 100 characters with a `...` marker. -/
def s3error_from_urllib (code : Option Nat) (body : Option Str) : S3Err :=
  match body with
  | none => { code := code, msg := ("HTTP error").data }
  | some data =>
    match firstIdx (("<Message>").data) data,
          firstIdx (("</Message>").data) data with
    | some b, some e =>
      let msg := pySlice data (b + 9) e
      { code := code,
        msg := if msg.length ≤ 100 then msg
               else msg.take 100 ++ ("...").data }
    | _, _ => { code := code, msg := ("HTTP error").data }

/-- The Python exceptions that can escape the modelled operations. -/
inductive OpErr where
  | s3 (e : S3Err)
  | runtimeError
  | keyError (key : Option Str)
  | valueError
  | attributeError
deriving DecidableEq

/-- The immutable per-bucket state (`self`) together with the abstracted
standard-library primitives: the HMAC-SHA1 and MD5 digests, the formatted
GMT wall clock at each request-building step, and `strptime` with
`rfc822_fmt`. -/
structure S3Ctx where
  hmacSha1 : List Nat → List Nat → List Nat
  md5fn : List Nat → List Nat
  clock : Nat → Str
  rfc822parse : Str → Option PyDateTime
  access_key : Str
  secret_key : Str
  name : Str
  base_url : Str

/-- The request `S3Bucket.new_request` builds on the `att`-th attempt. -/
def ctx_new_request (ctx : S3Ctx) (method : Str) (key : Option Str)
    (args : List (Str × Str)) (data : Option Str)
    (headers : List (Str × Str)) (att : Nat) : PyRequest :=
  new_request ctx.hmacSha1 ctx.md5fn ctx.access_key ctx.secret_key ctx.name
    ctx.base_url method key args data headers (ctx.clock att)

/-- The retry loop of `S3Bucket.make_request` (`for retry_no in xrange(10)`),
returning the outcome together with the trace of requests built.  A transport
error with status exactly 500 is retried with a freshly built (freshly dated,
freshly signed) request; any other transport error raises
`S3Error.from_urllib`; exhausting the loop raises `RuntimeError`. -/
def make_request_go (ctx : S3Ctx) (transport : Nat → Outcome) (method : Str)
    (key : Option Str) (args : List (Str × Str)) (data : Option Str)
    (headers : List (Str × Str)) :
    Nat → Nat → Except OpErr PyResponse × List PyRequest
  | 0, _ => (.error .runtimeError, [])
  | n + 1, att =>
    let req := ctx_new_request ctx method key args data headers att
    match transport att with
    | .resp r => (.ok r, [req])
    | .err c b =>
      if c = some 500 then
        let rest := make_request_go ctx transport method key args data headers
          n (att + 1)
        (rest.1, req :: rest.2)
      else (.error (.s3 (s3error_from_urllib c b)), [req])

/-- `S3Bucket.make_request`. -/
def make_request (ctx : S3Ctx) (transport : Nat → Outcome) (method : Str)
    (key : Option Str) (args : List (Str × Str)) (data : Option Str)
    (headers : List (Str × Str)) :
    Except OpErr PyResponse × List PyRequest :=
  make_request_go ctx transport method key args data headers 10 0

/-- Python `int()` on a string: optional surrounding spaces, optional sign,
then at least one digit; anything else raises `ValueError` (`none`). -/
def pyInt (s : Str) : Option Int :=
  let t := ((s.dropWhile (· = ' ')).reverse.dropWhile (· = ' ')).reverse
  match t with
  | '-' :: ds =>
    if ds ≠ [] ∧ ds.all (fun c => decide ('0' ≤ c ∧ c ≤ '9')) then
      some (-(pyIntDigits ds : Int))
    else none
  | '+' :: ds =>
    if ds ≠ [] ∧ ds.all (fun c => decide ('0' ≤ c ∧ c ≤ '9')) then
      some (pyIntDigits ds : Int)
    else none
  | ds =>
    if ds ≠ [] ∧ ds.all (fun c => decide ('0' ≤ c ∧ c ≤ '9')) then
      some (pyIntDigits ds : Int)
    else none

/-- The derived object-info snapshot of `simples3.bucket.info_dict`.  (In the
source the `date` entry is in fact a 1-tuple, due to a stray trailing comma;
the wrapping is dropped here as it carries no information.) -/
structure InfoDict where
  headers : List (Str × Str)
  metadata : List (Str × Str)
  size : Option Int
  mimetype : Option Str
  date : Option PyDateTime
  modify : Option PyDateTime
deriving DecidableEq

/-- `simples3.bucket.info_dict`: each optional entry is filled from the
corresponding header when present; `int`/`strptime` failures raise
`ValueError`. -/
def info_dict (rfc : Str → Option PyDateTime) (headers : List (Str × Str)) :
    Except OpErr InfoDict := do
  let size ← match pyLookup headers (("content-length").data) with
    | none => pure none
    | some v =>
      match pyInt v with
      | none => throw .valueError
      | some n => pure (some n)
  let mimetype := pyLookup headers (("content-type").data)
  let date ← match pyLookup headers (("date").data) with
    | none => pure none
    | some v =>
      match rfc v with
      | none => throw .valueError
      | some d => pure (some d)
  let modify ← match pyLookup headers (("last-modified").data) with
    | none => pure none
    | some v =>
      match rfc v with
      | none => throw .valueError
      | some d => pure (some d)
  pure { headers := headers, metadata := headers_metadata headers,
         size := size, mimetype := mimetype, date := date, modify := modify }

/-- `dict(response.info())`: `rfc822.Message` exposes lower-cased header
names. -/
def response_headers_dict (hs : List (Str × Str)) : List (Str × Str) :=
  hs.map (fun p => (lowerStr p.1, p.2))

/-- `S3Bucket.get`: a plain `GET` through `make_request` with the decoded
info attached; note there is no 404 handling here, so a 404 surfaces as the
`S3Error` raised by `make_request`. -/
def s3get (ctx : S3Ctx) (transport : Nat → Outcome) (key : Option Str) :
    Except OpErr (PyResponse × InfoDict) :=
  match (make_request ctx transport (("GET").data) key [] none []).1 with
  | .error e => .error e
  | .ok r =>
    match info_dict ctx.rfc822parse (response_headers_dict r.headers) with
    | .error e => .error e
    | .ok i => .ok (r, i)

/-- `S3Bucket.info`: a `HEAD` through `make_request`; an `S3Error` with code
404 is translated to `KeyError(key)`, everything else is re-raised. -/
def s3info (ctx : S3Ctx) (transport : Nat → Outcome) (key : Option Str) :
    Except OpErr InfoDict :=
  match (make_request ctx transport (("HEAD").data) key [] none []).1 with
  | .error (.s3 e) =>
    if e.code = some 404 then .error (.keyError key) else .error (.s3 e)
  | .error e => .error e
  | .ok r =>
    match info_dict ctx.rfc822parse (response_headers_dict r.headers) with
    | .error e => .error e
    | .ok i => .ok i

/-- `S3Bucket.delete`: on an `S3Error` the code binds the exception object to
`resp` and then calls `resp.close()` — but `S3Error` has no `close` attribute,
so every error path raises `AttributeError` before the 404/2xx
classification below is reached.  On a non-raising response the 2xx/404/other
classification does run. -/
def s3delete (ctx : S3Ctx) (transport : Nat → Outcome) (key : Option Str) :
    Except OpErr Bool :=
  match (make_request ctx transport (("DELETE").data) key [] none []).1 with
  | .error (.s3 _) => .error .attributeError
  | .error e => .error e
  | .ok r =>
    if 200 ≤ r.code ∧ r.code < 300 then .ok true
    else if r.code = 404 then .error (.keyError key)
    else .error (.s3 (s3error_from_urllib (some r.code) r.body))

/-- `S3Bucket.__contains__`: `info` wrapped so that `KeyError` means `False`,
success means `True`, and any other exception propagates. -/
def s3contains (ctx : S3Ctx) (transport : Nat → Outcome) (key : Option Str) :
    Except OpErr Bool :=
  match s3info ctx transport key with
  | .ok _ => .ok true
  | .error (.keyError _) => .ok false
  | .error e => .error e

/-- Numeric value of a digit character. -/
def digitVal (c : Char) : Nat := c.toNat - '0'.toNat

/-- Literal text in a `strptime` format: consume it or fail. -/
def expectLit (lit s : Str) : Option Str :=
  if s.take lit.length = lit then some (s.drop lit.length) else none

/-- `strptime` field `%Y`: exactly four digits. -/
def parseY (s : Str) : Option (Nat × Str) :=
  match s with
  | a :: b :: c :: d :: rest =>
    if a.isDigit ∧ b.isDigit ∧ c.isDigit ∧ d.isDigit then
      some (digitVal a * 1000 + digitVal b * 100 + digitVal c * 10 + digitVal d,
        rest)
    else none
  | _ => none

/-- `strptime` field `%m`: the alternation `1[0-2]|0[1-9]|[1-9]`. -/
def parseMonth (s : Str) : Option (Nat × Str) :=
  match s with
  | [] => none
  | c :: rest =>
    match rest with
    | [] => if '1' ≤ c ∧ c ≤ '9' then some (digitVal c, []) else none
    | c2 :: rest2 =>
      if c = '1' ∧ ('0' ≤ c2 ∧ c2 ≤ '2') then some (10 + digitVal c2, rest2)
      else if c = '0' ∧ ('1' ≤ c2 ∧ c2 ≤ '9') then some (digitVal c2, rest2)
      else if '1' ≤ c ∧ c ≤ '9' then some (digitVal c, c2 :: rest2)
      else none

/-- `strptime` field `%d`: the alternation `3[01]|[12]\d|0[1-9]|[1-9]`. -/
def parseDay (s : Str) : Option (Nat × Str) :=
  match s with
  | [] => none
  | c :: rest =>
    match rest with
    | [] => if '1' ≤ c ∧ c ≤ '9' then some (digitVal c, []) else none
    | c2 :: rest2 =>
      if c = '3' ∧ (c2 = '0' ∨ c2 = '1') then some (30 + digitVal c2, rest2)
      else if (c = '1' ∨ c = '2') ∧ c2.isDigit then
        some (digitVal c * 10 + digitVal c2, rest2)
      else if c = '0' ∧ ('1' ≤ c2 ∧ c2 ≤ '9') then some (digitVal c2, rest2)
      else if '1' ≤ c ∧ c ≤ '9' then some (digitVal c, c2 :: rest2)
      else none

/-- `strptime` field `%H`: the alternation `2[0-3]|[0-1]\d|\d`. -/
def parseHour (s : Str) : Option (Nat × Str) :=
  match s with
  | [] => none
  | c :: rest =>
    match rest with
    | [] => if c.isDigit then some (digitVal c, []) else none
    | c2 :: rest2 =>
      if c = '2' ∧ ('0' ≤ c2 ∧ c2 ≤ '3') then some (20 + digitVal c2, rest2)
      else if (c = '0' ∨ c = '1') ∧ c2.isDigit then
        some (digitVal c * 10 + digitVal c2, rest2)
      else if c.isDigit then some (digitVal c, c2 :: rest2)
      else none

/-- `strptime` field `%M`: the alternation `[0-5]\d|\d`. -/
def parseMinute (s : Str) : Option (Nat × Str) :=
  match s with
  | [] => none
  | c :: rest =>
    match rest with
    | [] => if c.isDigit then some (digitVal c, []) else none
    | c2 :: rest2 =>
      if ('0' ≤ c ∧ c ≤ '5') ∧ c2.isDigit then
        some (digitVal c * 10 + digitVal c2, rest2)
      else if c.isDigit then some (digitVal c, c2 :: rest2)
      else none

/-- `strptime` field `%S`: the alternation `6[0-1]|[0-5]\d|\d`. -/
def parseSecond (s : Str) : Option (Nat × Str) :=
  match s with
  | [] => none
  | c :: rest =>
    match rest with
    | [] => if c.isDigit then some (digitVal c, []) else none
    | c2 :: rest2 =>
      if c = '6' ∧ (c2 = '0' ∨ c2 = '1') then some (60 + digitVal c2, rest2)
      else if ('0' ≤ c ∧ c ≤ '5') ∧ c2.isDigit then
        some (digitVal c * 10 + digitVal c2, rest2)
      else if c.isDigit then some (digitVal c, c2 :: rest2)
      else none

/-- Gregorian leap year, as `datetime.date` uses. -/
def isLeapYear (y : Nat) : Bool :=
  decide (y % 4 = 0 ∧ (y % 100 ≠ 0 ∨ y % 400 = 0))

/-- Days in a month, as `datetime.date` validates. -/
def daysInMonth (y m : Nat) : Nat :=
  if m = 2 then (if isLeapYear y then 29 else 28)
  else if m = 4 ∨ m = 6 ∨ m = 9 ∨ m = 11 then 30
  else 31

/-- `simples3.bucket._iso8601_dt`: `datetime.strptime(v, iso8601_fmt)` with
the module constant `iso8601_fmt = '%Y-%m-%dT%H:%M:%S.000Z'`.  Note the
millisecond part of the format is the LITERAL text `.000`, not a field, so
only timestamps whose millisecond digits are exactly `000` parse; the
`datetime` constructor then validates the calendar date and rejects seconds
above 59 (`none` models the `ValueError`). -/
def _iso8601_dt (v : Str) : Option PyDateTime :=
  match parseY v with
  | none => none
  | some (y, s) =>
    match expectLit (['-']) s with
    | none => none
    | some s =>
      match parseMonth s with
      | none => none
      | some (mo, s) =>
        match expectLit (['-']) s with
        | none => none
        | some s =>
          match parseDay s with
          | none => none
          | some (d, s) =>
            match expectLit (['T']) s with
            | none => none
            | some s =>
              match parseHour s with
              | none => none
              | some (h, s) =>
                match expectLit ([':']) s with
                | none => none
                | some s =>
                  match parseMinute s with
                  | none => none
                  | some (mi, s) =>
                    match expectLit ([':']) s with
                    | none => none
                    | some s =>
                      match parseSecond s with
                      | none => none
                      | some (sec, s) =>
                        match expectLit ((".000Z").data) s with
                        | none => none
                        | some s =>
                          if s = [] then
                            if 1 ≤ y ∧ d ≤ daysInMonth y mo ∧ h ≤ 23 ∧
                                mi ≤ 59 ∧ sec ≤ 59 then
                              some { year := y, month := mo, day := d,
                                     hour := h, minute := mi, second := sec }
                            else none
                          else none

/-- The captured groups of `S3Bucket.listdir_re`. -/
structure ListdirGroups where
  key : Str
  modify : Str
  etag : Str
  size : Str
deriving DecidableEq

/-- `S3Bucket.listdir_re.match(info)`: a faithful backtracking matcher for
`^<Key>(.+?)</Key><LastModified>(.{24})</LastModified><ETag>(.+?)</ETag><Size>(\d+?)</Size>$`
(`.` does not match a newline; the non-greedy groups take the shortest
lengths that let the rest of the pattern match; `$` also matches just before
a final newline). -/
def listdir_re_match (info : Str) : Option ListdirGroups :=
  if pyStartswith info (("<Key>").data) then
    let s0 := info.drop 5
    (List.range s0.length).findSome? (fun k1 =>
      let k := k1 + 1
      let keyStr := s0.take k
      if keyStr.length = k ∧ keyStr.all (fun c => decide (c ≠ '\n')) ∧
          pyStartswith (s0.drop k) (("</Key><LastModified>").data) then
        let s1 := s0.drop (k + 20)
        let lm := s1.take 24
        if lm.length = 24 ∧ lm.all (fun c => decide (c ≠ '\n')) ∧
            pyStartswith (s1.drop 24) (("</LastModified><ETag>").data) then
          let s2 := s1.drop (24 + 21)
          (List.range s2.length).findSome? (fun e1 =>
            let e := e1 + 1
            let etagStr := s2.take e
            if etagStr.length = e ∧ etagStr.all (fun c => decide (c ≠ '\n')) ∧
                pyStartswith (s2.drop e) (("</ETag><Size>").data) then
              let s3 := s2.drop (e + 13)
              (List.range s3.length).findSome? (fun d1 =>
                let dn := d1 + 1
                let sz := s3.take dn
                if sz.length = dn ∧ sz.all Char.isDigit ∧
                    pyStartswith (s3.drop dn) (("</Size>").data) then
                  let s4 := s3.drop (dn + 7)
                  if s4 = [] ∨ s4 = ['\n'] then
                    some { key := keyStr, modify := lm, etag := etagStr,
                           size := sz }
                  else none
                else none)
            else none)
        else none
      else none)
  else none

/-- One entry yielded by `S3Bucket.listdir`. -/
structure Entry where
  key : Str
  modify : PyDateTime
  etag : Str
  size : Nat
deriving DecidableEq

/-- The `ValueError`s that the listing loop can raise, distinguished by the
raising site: `buffer.index("<Contents>")` failing, `piece.index("<Owner>")`
failing, the explicit `raise ValueError("unexpected: %r" % (piece,))`, and
`_iso8601_dt` failing. -/
inductive ListdirErr where
  | noOpen
  | noOwner
  | unexpected (piece : Str)
  | badTime (s : Str)
deriving DecidableEq

/-- `"<Contents>"`. -/
def contentsOpen : Str := ("<Contents>").data

/-- `"</Contents>"`. -/
def contentsClose : Str := ("</Contents>").data

/-- `"<Owner>"`. -/
def ownerTag : Str := ("<Owner>").data

/-- The tuple yielded for one record: the key, the parsed timestamp, the
etag with `&quot;` unescaped to `"`, and `int(size)`. -/
def mkEntry (g : ListdirGroups) (dt : PyDateTime) : Entry :=
  { key := g.key, modify := dt,
    etag := pyReplace (("&quot;").data) (['"']) g.etag,
    size := pyIntDigits g.size }

theorem firstIdx_add_length_le (pat : Str) :
    ∀ (s : Str) (p : Nat), firstIdx pat s = some p → p + pat.length ≤ s.length := by
  intro s
  induction s with
  | nil =>
    intro p h
    simp only [firstIdx] at h
    split at h
    · rename_i hp
      cases h
      simp [hp]
    · cases h
  | cons c s' ih =>
    intro p h
    simp only [firstIdx] at h
    split at h
    · rename_i htake
      cases h
      have hl := congrArg List.length htake
      simp [List.length_take] at hl
      simp only [List.length_cons]
      omega
    · rcases Option.map_eq_some'.1 h with ⟨q, hq, hpq⟩
      have := ih q hq
      subst hpq
      simp only [List.length_cons]
      omega

/-- Fuelled worker for the inner `while` loop of `S3Bucket.listdir`: each
iteration consumes at least `pos_end + 10 ≥ 10` characters of the buffer, so
fuel `buf.length` suffices; at fuel zero the buffer is empty, contains no
`</Contents>`, and the loop exits with the buffer unchanged, which is what
the zero case returns. -/
def drainF : Nat → Str → Except ListdirErr (List Entry × Str)
  | 0, buf => .ok ([], buf)
  | fuel + 1, buf =>
    match firstIdx contentsClose buf with
    | none => .ok ([], buf)
    | some p =>
      match firstIdx contentsOpen buf with
      | none => .error .noOpen
      | some i =>
        let piece := pySlice buf (i + 10) p
        match firstIdx ownerTag piece with
        | none => .error .noOwner
        | some j =>
          match listdir_re_match (piece.take j) with
          | none => .error (.unexpected piece)
          | some g =>
            match _iso8601_dt g.modify with
            | none => .error (.badTime g.modify)
            | some dt =>
              match drainF fuel (buf.drop (p + 10)) with
              | .error e => .error e
              | .ok (es, r) => .ok (mkEntry g dt :: es, r)

/-- The inner `while` loop of `S3Bucket.listdir`: repeatedly find a complete
`</Contents>` delimiter, slice out the record between the first `<Contents>`
and it, consume the buffer up to `pos_end + 10` (one character short of the
full closing tag, exactly as the source does), cut the record at `<Owner>`,
match it against `listdir_re`, and decode the entry.  Returns the entries in
order together with the final buffer. -/
def drain (buf : Str) : Except ListdirErr (List Entry × Str) :=
  drainF buf.length buf

/-- The outer read loop of `S3Bucket.listdir`: append each chunk delivered by
`response.read(4096)` to the buffer and drain it; an empty read means end of
stream, after which whatever is left in the buffer is discarded. -/
def listdirGo : List Str → Str → Except ListdirErr (List Entry)
  | [], buf =>
    match drain buf with
    | .error e => .error e
    | .ok (es, _) => .ok es
  | c :: cs, buf =>
    match drain (buf ++ c) with
    | .error e => .error e
    | .ok (es, buf') =>
      if c = [] then .ok es
      else
        match listdirGo cs buf' with
        | .error e => .error e
        | .ok es' => .ok (es ++ es')

/-- The parsing part of `S3Bucket.listdir`, fed with the response body as the
list of chunks the transport delivers (the generator is materialised as the
full finite sequence of yielded entries, or the `ValueError` raised while
iterating). -/
def listdir (chunks : List Str) : Except ListdirErr (List Entry) :=
  listdirGo chunks []

/-- RFC 3986 unreserved characters, as the specification's encoding rule
refers to them (letters, digits, `-`, `.`, `_`, `~`). -/
def rfc3986Unreserved (c : Char) : Bool :=
  decide (('A' ≤ c ∧ c ≤ 'Z') ∨ ('a' ≤ c ∧ c ≤ 'z') ∨ ('0' ≤ c ∧ c ≤ '9') ∨
    c = '-' ∨ c = '.' ∨ c = '_' ∨ c = '~')

/-- Modelled from the spec: the canonicalized resource path,
`'/' + percent-encoded bucket + '/' + percent-encoded key (key omitted when
absent)`. -/
def spec_canonicalized_resource (name : Str) (key : Option Str) : Str :=
  ['/'] ++ aws_urlquote name ++ ['/'] ++
    (match key with
     | none => []
     | some k => aws_urlquote k)

/-- Modelled from the spec: the canonical string
`METHOD \n Content-MD5 \n Content-Type \n Date \n` +
canonicalized-custom-headers + canonicalized-resource-path
[+ `?subresource`]. -/
def spec_canonical_string (name method : Str) (key : Option Str)
    (headers : List (Str × Str)) (subresource : Option Str) : Str :=
  method ++ ['\n'] ++ (pyLookup headers (("Content-MD5").data)).getD [] ++ ['\n']
    ++ (pyLookup headers (("Content-Type").data)).getD [] ++ ['\n']
    ++ (pyLookup headers (("Date").data)).getD [] ++ ['\n']
    ++ _amz_canonicalize headers ++ spec_canonicalized_resource name key
    ++ (match subresource with
        | none => []
        | some sr => ['?'] ++ sr)

/-- Modelled from the spec: the signature is the base64 text (trailing
newline trimmed) of the HMAC-SHA1 digest, keyed by the secret key, of the
UTF-8 encoding of the canonical string. -/
def spec_signature (hmacSha1 : List Nat → List Nat → List Nat)
    (secret_key name method : Str) (key : Option Str)
    (headers : List (Str × Str)) (subresource : Option Str) : Str :=
  b64 (hmacSha1 (utf8 secret_key)
    (utf8 (spec_canonical_string name method key headers subresource)))

/-- The character for a decimal digit. -/
def digitChar (n : Nat) : Char := Char.ofNat (48 + n)

/-- Zero-padded two-digit decimal. -/
def pad2 (n : Nat) : Str := [digitChar (n / 10), digitChar (n % 10)]

/-- Zero-padded three-digit decimal. -/
def pad3 (n : Nat) : Str :=
  [digitChar (n / 100), digitChar (n / 10 % 10), digitChar (n % 10)]

/-- Zero-padded four-digit decimal. -/
def pad4 (n : Nat) : Str :=
  [digitChar (n / 1000), digitChar (n / 100 % 10), digitChar (n / 10 % 10),
   digitChar (n % 10)]

/-- A last-modified string in the listing wire format
`YYYY-MM-DDTHH:MM:SS.mmmZ`. -/
def fmtIso8601Ms (y mo d h mi s ms : Nat) : Str :=
  pad4 y ++ ('-' :: (pad2 mo ++ ('-' :: (pad2 d ++ ('T' :: (pad2 h ++
    (':' :: (pad2 mi ++ (':' :: (pad2 s ++ ('.' :: (pad3 ms ++ ['Z']))))))))))))

/-- A bucket context with inert standard-library primitives, for concrete
evaluations. -/
def trivialCtx : S3Ctx :=
  { hmacSha1 := fun _ _ => [], md5fn := fun _ => [], clock := fun _ => [],
    rfc822parse := fun _ => none, access_key := [], secret_key := [],
    name := ("bucket").data, base_url := default_base_url (("bucket").data) }

/-- A transport that always reports HTTP 404. -/
def transport404 : Nat → Outcome := fun _ => .err (some 404) none

/-- A concrete successful response. -/
def resp200 : PyResponse := { code := 200, headers := [], body := none }

/-- A transport that reports HTTP 500 nine times and then succeeds. -/
def transport9x500 : Nat → Outcome :=
  fun i => if i < 9 then .err (some 500) none else .resp resp200

/-- A transport that always reports HTTP 500. -/
def transport500 : Nat → Outcome := fun _ => .err (some 500) none

/-- A transport that always reports HTTP 503. -/
def transport503 : Nat → Outcome := fun _ => .err (some 503) none

/-- A transport that always succeeds. -/
def transportOk : Nat → Outcome := fun _ => .resp resp200

/-- A well-formed listing record (fields of the first example entry). -/
def listdirRec1 : Str :=
  ("<Contents><Key>k1</Key><LastModified>2009-01-01T12:00:00.000Z</LastModified><ETag>&quot;e1&quot;</ETag><Size>10</Size><Owner>o</Owner></Contents>").data

/-- A second well-formed listing record. -/
def listdirRec2 : Str :=
  ("<Contents><Key>k2</Key><LastModified>2010-12-31T23:59:59.000Z</LastModified><ETag>e2</ETag><Size>7</Size><Owner>zzz</Owner></Contents>").data

/-- A well-formed two-record listing body. -/
def listdirBody : Str :=
  ("<ListBucketResult>").data ++ listdirRec1 ++ listdirRec2 ++
    ("</ListBucketResult>").data

/-- A listing body whose record is missing its `<Size>` field, so it fails
the `listdir_re` pattern. -/
def listdirBadBody : Str :=
  ("<Contents><Key>k1</Key><LastModified>2009-01-01T12:00:00.000Z</LastModified><ETag>e</ETag><Owner>o</Owner></Contents>").data

/-! ## General lemmas about the string primitives -/

theorem lowerStr_append (a b : Str) :
    lowerStr (a ++ b) = lowerStr a ++ lowerStr b := by
  simp [lowerStr]

theorem pyStartswith_append_self (a b : Str) :
    pyStartswith (a ++ b) a = true := by
  simp [pyStartswith, List.take_left]

/-! ## C8: metadata round-trip -/

/-- C8: for every metadata mapping, encoding it with `metadata_headers`
(prefixing each key with `X-AMZ-Meta-`) and decoding the result with
`headers_metadata` (case-folding before matching the prefix and stripping it)
reproduces the original mapping exactly. -/
theorem c8_metadata_roundtrip (m : List (Str × Str)) :
    headers_metadata (metadata_headers m) = m := by
  induction m with
  | nil => rfl
  | cons p t ih =>
    obtain ⟨h, v⟩ := p
    have hlow : lowerStr ((("X-AMZ-Meta-").data : Str) ++ h) =
        (("x-amz-meta-").data : Str) ++ lowerStr h := by
      rw [lowerStr_append]
      rfl
    have hsw : pyStartswith (lowerStr ((("X-AMZ-Meta-").data : Str) ++ h))
        (("x-amz-meta-").data) = true := by
      rw [hlow]
      exact pyStartswith_append_self _ _
    have hdrop : ((("X-AMZ-Meta-").data : Str) ++ h).drop 11 = h := by
      show ((("X-AMZ-Meta-").data : Str) ++ h).drop
        ((("X-AMZ-Meta-").data : Str).length) = h
      exact List.drop_left _ _
    calc headers_metadata (metadata_headers ((h, v) :: t))
        = (h, v) :: headers_metadata (metadata_headers t) := by
          simp only [metadata_headers, List.map_cons, headers_metadata,
            List.filterMap_cons, hsw, if_true, hdrop]
      _ = (h, v) :: t := by rw [ih]

/-! ## C5: canonicalized custom headers -/

theorem filter_key_length_le_one (k : Str) :
    ∀ (l : List (Str × Str)), (l.map Prod.fst).Nodup →
      (l.filter (fun p => decide (p.1 = k))).length ≤ 1 := by
  intro l
  induction l with
  | nil => intro _; simp
  | cons a t ih =>
    intro hnd
    rw [List.map_cons, List.nodup_cons] at hnd
    by_cases hk : a.1 = k
    · have ht : t.filter (fun p => decide (p.1 = k)) = [] := by
        rw [List.filter_eq_nil_iff]
        intro p hp hpk
        simp only [decide_eq_true_eq] at hpk
        apply hnd.1
        have hmem : p.1 ∈ List.map Prod.fst t := List.mem_map_of_mem Prod.fst hp
        rwa [hpk, ← hk] at hmem
      simp [List.filter_cons, hk, ht]
    · have hstep : (a :: t).filter (fun p => decide (p.1 = k)) =
          t.filter (fun p => decide (p.1 = k)) := by
        simp [List.filter_cons, hk]
      rw [hstep]
      exact ih hnd.2

theorem perm_eq_of_length_le_one {α : Type} {l1 l2 : List α}
    (h : List.Perm l1 l2) (hl : l1.length ≤ 1) : l1 = l2 := by
  match l1, hl with
  | [], _ => exact (List.perm_nil.1 h.symm).symm
  | [a], _ => exact (List.perm_singleton.1 h.symm).symm

/-- C5 counterexample: `_amz_canonicalize` is NOT invariant under reordering
of the header mapping.  The mapping holding both `x-amz-a` and `X-Amz-A`
(distinct dict keys that collide after case-folding) canonicalizes to
`x-amz-a:1,2\n` in one iteration order and to `x-amz-a:2,1\n` in the
reversed order, because the values of case-colliding names are joined in
iteration order. -/
theorem c5_counterexample :
    List.Perm
      [((("X-Amz-A").data : Str), (("2").data : Str)),
       ((("x-amz-a").data : Str), (("1").data : Str))]
      [((("x-amz-a").data : Str), (("1").data : Str)),
       ((("X-Amz-A").data : Str), (("2").data : Str))] ∧
    _amz_canonicalize
      [((("x-amz-a").data : Str), (("1").data : Str)),
       ((("X-Amz-A").data : Str), (("2").data : Str))] = ("x-amz-a:1,2\n").data ∧
    _amz_canonicalize
      [((("X-Amz-A").data : Str), (("2").data : Str)),
       ((("x-amz-a").data : Str), (("1").data : Str))] = ("x-amz-a:2,1\n").data ∧
    (("x-amz-a:1,2\n").data : Str) ≠ ("x-amz-a:2,1\n").data := by
  refine ⟨List.Perm.swap _ _ _, rfl, rfl, by decide⟩

/-- C5 (amended): `_amz_canonicalize` is invariant under case permutation of
header names unconditionally, and under reordering of the mapping provided no
two distinct header names collide after case-folding (the counterexample
shows the restriction is necessary); headers not prefixed with `x-amz-`
never influence the output; and the empty mapping yields the empty string. -/
theorem c5_amz_canonicalize_invariance :
    (∀ h1 h2 : List (Str × Str), h1.map lowerPair = h2.map lowerPair →
      _amz_canonicalize h1 = _amz_canonicalize h2)
    ∧ (∀ h1 h2 : List (Str × Str), List.Perm h1 h2 →
        ((amzPairs h1).map Prod.fst).Nodup →
        _amz_canonicalize h1 = _amz_canonicalize h2)
    ∧ (∀ h : List (Str × Str),
        _amz_canonicalize h =
          _amz_canonicalize (h.filter (fun p => isAmzName (lowerPair p))))
    ∧ _amz_canonicalize [] = [] := by
  refine ⟨?_, ?_, ?_, rfl⟩
  · intro h1 h2 hmap
    simp only [_amz_canonicalize, amzPairs, hmap]
  · intro h1 h2 hperm hnd
    have hp : List.Perm (amzPairs h1) (amzPairs h2) :=
      (hperm.map lowerPair).filter isAmzName
    have hk : List.Perm ((amzPairs h1).map Prod.fst)
        ((amzPairs h2).map Prod.fst) := hp.map _
    have hnd2 : ((amzPairs h2).map Prod.fst).Nodup := hk.nodup hnd
    have hline : amzLine (amzPairs h1) = amzLine (amzPairs h2) := by
      funext k
      have hfe : (amzPairs h1).filter (fun p => decide (p.1 = k)) =
          (amzPairs h2).filter (fun p => decide (p.1 = k)) :=
        perm_eq_of_length_le_one (hp.filter _)
          (filter_key_length_le_one k _ hnd)
      simp only [amzLine, hfe]
    have hsort : List.insertionSort (· ≤ ·)
          ((amzPairs h1).map Prod.fst).dedup =
        List.insertionSort (· ≤ ·) ((amzPairs h2).map Prod.fst).dedup := by
      rw [List.dedup_eq_self.2 hnd, List.dedup_eq_self.2 hnd2]
      refine List.eq_of_perm_of_sorted ?_
        (List.sorted_insertionSort _ _) (List.sorted_insertionSort _ _)
      exact ((List.perm_insertionSort _ _).trans hk).trans
        (List.perm_insertionSort _ _).symm
    simp only [_amz_canonicalize, hsort, hline]
  · intro h
    have hpairs : amzPairs (h.filter (fun p => isAmzName (lowerPair p))) =
        amzPairs h := by
      simp only [amzPairs]
      rw [List.filter_map, List.filter_map, List.filter_filter]
      congr 1
      apply List.filter_congr
      intro p _
      simp [Function.comp, Bool.and_self]
    simp only [_amz_canonicalize, hpairs]

/-- Witness for C5's amended theorem at concrete inputs: a two-header mapping
with distinct case-folded names is canonicalized identically in both orders,
case permutation of a name does not change the output, and non-`x-amz-`
headers are dropped. -/
theorem c5_amz_canonicalize_invariance_witness :
    _amz_canonicalize
      [((("x-amz-b").data : Str), (("v").data : Str)),
       ((("x-amz-a").data : Str), (("w").data : Str))] =
    _amz_canonicalize
      [((("x-amz-a").data : Str), (("w").data : Str)),
       ((("x-amz-b").data : Str), (("v").data : Str))] ∧
    _amz_canonicalize [((("X-AMZ-Date").data : Str), (("d").data : Str))] =
      _amz_canonicalize [((("x-AmZ-dAtE").data : Str), (("d").data : Str))] ∧
    _amz_canonicalize
      [((("Content-Type").data : Str), (("text/plain").data : Str)),
       ((("x-amz-acl").data : Str), (("private").data : Str))] =
    _amz_canonicalize
      (List.filter (fun p => isAmzName (lowerPair p))
        [((("Content-Type").data : Str), (("text/plain").data : Str)),
         ((("x-amz-acl").data : Str), (("private").data : Str))]) := by
  refine ⟨?_, ?_, ?_⟩
  · exact c5_amz_canonicalize_invariance.2.1 _ _ (List.Perm.swap _ _ _)
      (by decide)
  · exact c5_amz_canonicalize_invariance.1 _ _ (by decide)
  · exact c5_amz_canonicalize_invariance.2.2.1 _

/-! ## C6: URL construction and percent-encoding -/

theorem aws_urlquote_append (a b : Str) :
    aws_urlquote (a ++ b) = aws_urlquote a ++ aws_urlquote b := by
  simp [aws_urlquote, utf8]

/-- C6 counterexample: the claim exempts every RFC 3986 unreserved character
from percent-encoding, but `aws_urlquote` (Python 2 `urllib.quote`)
percent-encodes the unreserved character `~` as `%7E`. -/
theorem c6_counterexample :
    rfc3986Unreserved '~' = true ∧
    aws_urlquote (['~']) = ("%7E").data ∧
    aws_urlquote (['~']) ≠ (['~'] : Str) := by
  refine ⟨rfl, rfl, by decide⟩

/-- C6 (amended): URL construction percent-encodes every byte of the
UTF-8-encoded object key except ASCII letters, digits, `_`, `.`, `-` and `/`
(so `~`, though RFC-3986-unreserved, is encoded): slashes stay literal path
separators, safe characters stay themselves, every other ASCII character
becomes `%XX`, non-ASCII text is encoded byte-wise (`å` → `%C3%A5`), and for
bucket `bottle` and key `the dregs` the built URL is
`https://s3.amazonaws.com/bottle/the%20dregs`. -/
theorem c6_url_encoding :
    (∀ a b : Str, aws_urlquote (a ++ ['/'] ++ b) =
      aws_urlquote a ++ ['/'] ++ aws_urlquote b)
    ∧ (∀ c : Char, quoteSafeByte c.toNat = true → aws_urlquote [c] = [c])
    ∧ (∀ c : Char, c.toNat < 128 → quoteSafeByte c.toNat = false →
        aws_urlquote [c] =
          ['%', hexDigit (c.toNat / 16), hexDigit (c.toNat % 16)])
    ∧ aws_urlquote (("å").data) = ("%C3%A5").data
    ∧ make_url (default_base_url (("bottle").data))
        (some (("the dregs").data)) [] ([';']) =
      ("https://s3.amazonaws.com/bottle/the%20dregs").data
    ∧ (∀ hm : List Nat → List Nat → List Nat, ∀ access secret : Str,
        url_for hm access secret (("bottle").data)
          (default_base_url (("bottle").data)) (some (("the dregs").data))
          false [] =
        ("https://s3.amazonaws.com/bottle/the%20dregs").data) := by
  refine ⟨?_, ?_, ?_, rfl, rfl, fun _ _ _ => rfl⟩
  · intro a b
    rw [aws_urlquote_append, aws_urlquote_append]
    rfl
  · intro c hsafe
    have hlt : c.toNat < 128 := by
      have hd := of_decide_eq_true hsafe
      rcases hd with h | h | h | h | h | h | h <;> omega
    have hu : utf8Char c = [c.toNat] := by
      simp [utf8Char, hlt]
    have hq : quoteByte c.toNat = [Char.ofNat c.toNat] := by
      simp [quoteByte, hsafe]
    simp [aws_urlquote, utf8, hu, hq, Char.ofNat_toNat]
  · intro c hlt hunsafe
    have hu : utf8Char c = [c.toNat] := by
      simp [utf8Char, hlt]
    have hq : quoteByte c.toNat =
        ['%', hexDigit (c.toNat / 16), hexDigit (c.toNat % 16)] := by
      simp [quoteByte, hunsafe]
    simp [aws_urlquote, utf8, hu, hq]

/-- Witness for C6's amended theorem: the safe-character and
percent-encoding cases applied at `a` and at the space character. -/
theorem c6_url_encoding_witness :
    aws_urlquote ['a'] = ['a'] ∧
    aws_urlquote [' '] = ['%', hexDigit 2, hexDigit 0] := by
  exact ⟨c6_url_encoding.2.1 'a' (by decide),
    c6_url_encoding.2.2.1 ' ' (by decide) (by decide)⟩

/-! ## C3: the signature refines the specified canonical string and digest -/

theorem b64_length (bs : List Nat) :
    (b64 bs).length = 4 * ((bs.length + 2) / 3) := by
  induction bs using b64.induct with
  | case1 => rfl
  | case2 a => simp [b64]
  | case3 a b => simp [b64]
  | case4 a b c rest ih =>
    simp only [b64, List.length_append, List.length_cons, ih,
      List.length_nil]
    omega

theorem chunks76_of_le (s : Str) (h : s.length ≤ 76) : chunks76 s = [s] := by
  rcases hsl : s.length with _ | n
  · rw [chunks76, hsl]
    rfl
  · rw [chunks76, hsl]
    rw [chunks76F, if_pos (by omega)]

theorem pyEncodeBase64_dropLast_of_short (bs : List Nat)
    (h : (b64 bs).length ≤ 76) : (pyEncodeBase64 bs).dropLast = b64 bs := by
  rw [pyEncodeBase64, chunks76_of_le _ h]
  simp

theorem make_description_eq_spec (name method : Str) (key : Option Str)
    (headers : List (Str × Str)) (sub : Option Str)
    (hsub : ∀ sr, sub = some sr → sr ≠ []) :
    make_description name method key headers sub none =
      spec_canonical_string name method key headers sub := by
  have hres : canonicalized_resource name key none =
      spec_canonicalized_resource name key := by
    cases key with
    | none => simp [canonicalized_resource, spec_canonicalized_resource]
    | some k =>
      by_cases hk : k = []
      · subst hk
        simp [canonicalized_resource, spec_canonicalized_resource]
        rfl
      · simp [canonicalized_resource, spec_canonicalized_resource, hk]
  cases sub with
  | none =>
    simp [make_description, spec_canonical_string, hres]
  | some sr =>
    have hne := hsub sr rfl
    simp [make_description, spec_canonical_string, hres, hne]

/-- C3: for every method, key, header mapping, optional (nonempty)
subresource, and secret key, `get_request_signature` — the composition of
`make_description` and `sign_description` — produces exactly the base64 text
(trailing newline trimmed by `[:-1]`) of the HMAC-SHA1 digest, keyed by the
secret key, of the UTF-8 encoding of the canonical string
`METHOD\n Content-MD5\n Content-Type\n Date\n` + canonicalized headers +
`/bucket/key` + optional `?subresource`, as the specification states.  The
HMAC-SHA1 primitive is abstract, constrained only to produce 20-byte
digests as HMAC-SHA1 does. -/
theorem c3_signature_refinement
    (hmacSha1 : List Nat → List Nat → List Nat)
    (hlen : ∀ k m, (hmacSha1 k m).length = 20)
    (secret_key name method : Str) (key : Option Str)
    (headers : List (Str × Str)) (subresource : Option Str)
    (hsub : ∀ sr, subresource = some sr → sr ≠ []) :
    get_request_signature hmacSha1 secret_key name method key headers
      subresource none =
    spec_signature hmacSha1 secret_key name method key headers subresource := by
  rw [get_request_signature, sign_description, spec_signature,
    make_description_eq_spec name method key headers subresource hsub]
  apply pyEncodeBase64_dropLast_of_short
  rw [b64_length, hlen]
  decide

/-- Witness for C3 at a concrete input: a constant 20-byte digest function,
bucket `johnsmith`, a `GET` of key `photo.jpg` with a `Date` header and the
`acl` subresource. -/
theorem c3_signature_refinement_witness :
    get_request_signature (fun _ _ => List.replicate 20 0)
      (("uV3F3Y").data) (("johnsmith").data) (("GET").data)
      (some (("photo.jpg").data))
      [((("Date").data : Str), (("Tue, 27 Mar 2007 19:36:42 +0000").data : Str))]
      (some (("acl").data)) none =
    spec_signature (fun _ _ => List.replicate 20 0)
      (("uV3F3Y").data) (("johnsmith").data) (("GET").data)
      (some (("photo.jpg").data))
      [((("Date").data : Str), (("Tue, 27 Mar 2007 19:36:42 +0000").data : Str))]
      (some (("acl").data)) := by
  exact c3_signature_refinement (fun _ _ => List.replicate 20 0)
    (fun _ _ => by simp) _ _ _ _ _ _
    (fun sr hsr => by cases hsr; decide)

/-! ## C9: the secret key reaches the request only through the HMAC -/

theorem pyLookup_pySetItem_self (hs : List (Str × Str)) (k v : Str) :
    pyLookup (pySetItem hs k v) k = some v := by
  induction hs with
  | nil => simp [pySetItem, pyLookup]
  | cons p t ih =>
    obtain ⟨k', v'⟩ := p
    by_cases hk : k' = k
    · simp [pySetItem, hk, pyLookup]
    · simp only [pySetItem, hk, if_false]
      simpa [pyLookup, List.find?, hk] using ih

theorem filter_pySetItem_ne (hs : List (Str × Str)) (k v : Str) :
    (pySetItem hs k v).filter (fun p => !decide (p.1 = k)) =
      hs.filter (fun p => !decide (p.1 = k)) := by
  induction hs with
  | nil => simp [pySetItem]
  | cons p t ih =>
    obtain ⟨k', v'⟩ := p
    by_cases hk : k' = k
    · subst hk
      simp [pySetItem, List.filter_cons, ih]
    · simp [pySetItem, hk, List.filter_cons, ih]

/-- C9: the secret key influences a constructed request only through the
HMAC signature.  (1) Requests built with two different secret keys agree on
URL, method, body, and every header other than `Authorization`; (2) when the
caller did not supply an `Authorization` header, its value is exactly
`AWS <access>:<signature>` where the signature is `sign_description` (the
base64 HMAC output) of a description built without the secret; (3) the
query-string-authenticated `url_for` URL is a secret-independent prefix
followed by the percent-encoded `sign_description` output, and (4) the
unauthenticated `url_for` URL does not depend on the secret at all. -/
theorem c9_secret_only_in_hmac :
    (∀ (hm : List Nat → List Nat → List Nat) (md5fn : List Nat → List Nat)
       (access s1 s2 name base_url method : Str) (key : Option Str)
       (args : List (Str × Str)) (data : Option Str)
       (headers : List (Str × Str)) (date : Str),
      (new_request hm md5fn access s1 name base_url method key args data
          headers date).url =
        (new_request hm md5fn access s2 name base_url method key args data
          headers date).url ∧
      (new_request hm md5fn access s1 name base_url method key args data
          headers date).method =
        (new_request hm md5fn access s2 name base_url method key args data
          headers date).method ∧
      (new_request hm md5fn access s1 name base_url method key args data
          headers date).data =
        (new_request hm md5fn access s2 name base_url method key args data
          headers date).data ∧
      ((new_request hm md5fn access s1 name base_url method key args data
          headers date).headers.filter
            (fun p => decide (p.1 ≠ ("Authorization").data))) =
        ((new_request hm md5fn access s2 name base_url method key args data
          headers date).headers.filter
            (fun p => decide (p.1 ≠ ("Authorization").data))))
    ∧ (∀ (hm : List Nat → List Nat → List Nat) (md5fn : List Nat → List Nat)
         (access secret name base_url method : Str) (key : Option Str)
         (args : List (Str × Str)) (data : Option Str)
         (headers : List (Str × Str)) (date : Str),
        pyLookup (new_request_headers md5fn data headers date)
            (("Authorization").data) = none →
        pyLookup (new_request hm md5fn access secret name base_url method key
            args data headers date).headers (("Authorization").data) =
          some (("AWS ").data ++ access ++ [':'] ++
            get_request_signature hm secret name method key
              (new_request_headers md5fn data headers date) none none))
    ∧ (∀ (hm : List Nat → List Nat → List Nat)
         (access secret name base_url : Str) (key : Option Str) (e : Str),
        url_for hm access secret name base_url key true e =
          base_url ++ ['/'] ++
            (match key with
             | none => []
             | some k => if k = [] then [] else aws_urlquote k) ++ ['?'] ++
            ("AWSAccessKeyId=").data ++ quote_plus access ++
            ("&Expires=").data ++ quote_plus e ++
            ("&Signature=").data ++
            quote_plus (sign_description hm secret
              (url_for_auth_descriptor name key e)))
    ∧ (∀ (hm : List Nat → List Nat → List Nat)
         (access s1 s2 name base_url : Str) (key : Option Str) (e : Str),
        url_for hm access s1 name base_url key false e =
          url_for hm access s2 name base_url key false e) := by
  refine ⟨?_, ?_, ?_, fun _ _ _ _ _ _ _ _ => rfl⟩
  · intro hm md5fn access s1 s2 name base_url method key args data headers date
    refine ⟨rfl, rfl, rfl, ?_⟩
    simp only [new_request]
    cases hl : pyLookup (new_request_headers md5fn data headers date)
        (("Authorization").data) with
    | none => simp [hl, filter_pySetItem_ne]
    | some v => simp [hl]
  · intro hm md5fn access secret name base_url method key args data headers
      date hnone
    simp only [new_request, hnone, Option.isNone_none, if_true]
    exact pyLookup_pySetItem_self _ _ _
  · intro hm access secret name base_url key e
    simp only [url_for, make_url, if_true]
    simp [List.intercalate, List.intersperse, List.append_assoc]
    rfl

/-- Witness for C9: with no caller-supplied headers, the `Authorization`
header of a freshly built request is exactly `AWS <access>:<signature>`. -/
theorem c9_secret_only_in_hmac_witness :
    pyLookup (new_request (fun _ _ => List.replicate 20 0) (fun _ => [])
        (("AKID").data) (("SECRET").data) (("bucket").data)
        (default_base_url (("bucket").data)) (("GET").data)
        (some (("k").data)) [] none [] (("Thu, 01 Jan 2009 00:00:00 GMT").data)).headers
      (("Authorization").data) =
    some (("AWS ").data ++ ("AKID").data ++ [':'] ++
      get_request_signature (fun _ _ => List.replicate 20 0) (("SECRET").data)
        (("bucket").data) (("GET").data) (some (("k").data))
        (new_request_headers (fun _ => []) none []
          (("Thu, 01 Jan 2009 00:00:00 GMT").data)) none none) := by
  exact c9_secret_only_in_hmac.2.1 (fun _ _ => List.replicate 20 0)
    (fun _ => []) (("AKID").data) (("SECRET").data) (("bucket").data)
    (default_base_url (("bucket").data)) (("GET").data) (some (("k").data))
    [] none [] (("Thu, 01 Jan 2009 00:00:00 GMT").data) rfl

/-! ## C2: the retry loop -/

theorem make_request_go_skip (ctx : S3Ctx) (transport : Nat → Outcome)
    (method : Str) (key : Option Str) (args : List (Str × Str))
    (data : Option Str) (headers : List (Str × Str)) :
    ∀ (k n att : Nat),
      (∀ i, i < k → ∃ b, transport (att + i) = .err (some 500) b) →
      make_request_go ctx transport method key args data headers (k + n) att =
        ((make_request_go ctx transport method key args data headers n
            (att + k)).1,
         (List.range k).map
            (fun i => ctx_new_request ctx method key args data headers
              (att + i)) ++
           (make_request_go ctx transport method key args data headers n
              (att + k)).2) := by
  intro k
  induction k with
  | zero =>
    intro n att _
    simp
  | succ k ih =>
    intro n att h500
    obtain ⟨b, hb⟩ := h500 0 (Nat.succ_pos k)
    rw [Nat.add_zero] at hb
    have hstep : k + 1 + n = (k + n) + 1 := by omega
    rw [hstep]
    simp only [make_request_go]
    rw [hb]
    simp only [reduceIte]
    have ih' := ih n (att + 1) (fun i hi => by
      have h2 := h500 (i + 1) (by omega)
      have harith : att + (i + 1) = att + 1 + i := by omega
      rwa [harith] at h2)
    rw [ih']
    have harr : att + 1 + k = att + (k + 1) := by omega
    rw [harr]
    have hfun : (fun i => ctx_new_request ctx method key args data headers
          (att + 1 + i)) =
        (fun i => ctx_new_request ctx method key args data headers (att + i))
          ∘ (· + 1) := by
      funext i
      show ctx_new_request ctx method key args data headers (att + 1 + i) =
        ctx_new_request ctx method key args data headers (att + (i + 1))
      rw [show att + 1 + i = att + (i + 1) from by omega]
    simp only [List.range_succ_eq_map, List.map_cons, List.map_map,
      Nat.add_zero, List.cons_append, hfun]

/-- C2: `make_request` retries only on transport errors whose status is
exactly 500, rebuilding a freshly dated, freshly signed request on every
attempt (the trace equals `new_request` at clock instants 0..n), for at most
10 attempts: 9 consecutive 500s followed by a success return the success
response; 10 consecutive 500s raise `RuntimeError`, which is a distinct
condition from the structured `S3Error`; and any first outcome whose status
is not exactly 500 raises `S3Error.from_urllib` immediately. -/
theorem c2_make_request_retry :
    (∀ (ctx : S3Ctx) (transport : Nat → Outcome) (method : Str)
       (key : Option Str) (args : List (Str × Str)) (data : Option Str)
       (headers : List (Str × Str)) (r : PyResponse),
      (∀ i, i < 9 → ∃ b, transport i = .err (some 500) b) →
      transport 9 = .resp r →
      make_request ctx transport method key args data headers =
        (.ok r, (List.range 10).map
          (fun i => ctx_new_request ctx method key args data headers i)))
    ∧ (∀ (ctx : S3Ctx) (transport : Nat → Outcome) (method : Str)
         (key : Option Str) (args : List (Str × Str)) (data : Option Str)
         (headers : List (Str × Str)),
        (∀ i, i < 10 → ∃ b, transport i = .err (some 500) b) →
        (make_request ctx transport method key args data headers).1 =
          .error .runtimeError)
    ∧ (∀ (ctx : S3Ctx) (transport : Nat → Outcome) (method : Str)
         (key : Option Str) (args : List (Str × Str)) (data : Option Str)
         (headers : List (Str × Str)) (c : Option Nat) (b : Option Str),
        transport 0 = .err c b → c ≠ some 500 →
        (make_request ctx transport method key args data headers).1 =
          .error (.s3 (s3error_from_urllib c b)))
    ∧ (∀ e : S3Err, OpErr.runtimeError ≠ OpErr.s3 e) := by
  refine ⟨?_, ?_, ?_, fun e h => by cases h⟩
  · intro ctx transport method key args data headers r h500 hok
    have hskip := make_request_go_skip ctx transport method key args data
      headers 9 1 0 (fun i hi => by simpa using h500 i hi)
    rw [make_request, show (10 : Nat) = 9 + 1 from rfl, hskip]
    simp only [Nat.zero_add, make_request_go, hok]
    conv_rhs => rw [List.range_succ]
    simp only [List.map_append, List.map_cons, List.map_nil]
  · intro ctx transport method key args data headers h500
    have hskip := make_request_go_skip ctx transport method key args data
      headers 10 0 0 (fun i hi => by simpa using h500 i hi)
    rw [make_request, show (10 : Nat) = 10 + 0 from rfl, hskip]
    rfl
  · intro ctx transport method key args data headers c b h0 hc
    rw [make_request]
    simp only [make_request_go, h0]
    simp [hc]

/-- Witness for C2 at concrete transports: 9×500-then-success returns the
success with a 10-request trace; 10×500 exhausts into `RuntimeError`; a 503
raises `S3Error` at once. -/
theorem c2_make_request_retry_witness :
    make_request trivialCtx transport9x500 (("GET").data) none [] none [] =
      (.ok resp200, (List.range 10).map
        (fun i => ctx_new_request trivialCtx (("GET").data) none [] none [] i))
    ∧ (make_request trivialCtx transport500 (("GET").data) none [] none []).1 =
        .error .runtimeError
    ∧ (make_request trivialCtx transport503 (("GET").data) none [] none []).1 =
        .error (.s3 (s3error_from_urllib (some 503) none)) := by
  refine ⟨?_, ?_, ?_⟩
  · exact c2_make_request_retry.1 trivialCtx transport9x500 (("GET").data)
      none [] none [] resp200
      (fun i hi => ⟨none, by simp [transport9x500, hi]⟩) (by rfl)
  · exact c2_make_request_retry.2.1 trivialCtx transport500 (("GET").data)
      none [] none [] (fun i _ => ⟨none, rfl⟩)
  · exact c2_make_request_retry.2.2.1 trivialCtx transport503 (("GET").data)
      none [] none [] (some 503) none rfl (by decide)

/-! ## C10: membership via `info` -/

/-- C10: `key in bucket` returns `True` exactly when `info` succeeds,
`False` exactly when `info` raises `KeyError`, and propagates every other
exception (e.g. an `S3Error` for a non-404 failure) unchanged. -/
theorem c10_contains_membership (ctx : S3Ctx) (transport : Nat → Outcome)
    (key : Option Str) :
    (∀ i, s3info ctx transport key = .ok i →
      s3contains ctx transport key = .ok true)
    ∧ (∀ k', s3info ctx transport key = .error (.keyError k') →
        s3contains ctx transport key = .ok false)
    ∧ (∀ e, s3info ctx transport key = .error e →
        (∀ k', e ≠ .keyError k') →
        s3contains ctx transport key = .error e) := by
  refine ⟨?_, ?_, ?_⟩
  · intro i h
    simp [s3contains, h]
  · intro k' h
    simp [s3contains, h]
  · intro e h hne
    cases e with
    | keyError k' => exact absurd rfl (hne k')
    | _ => simp [s3contains, h]

/-- Witness for C10 at concrete transports: success gives `True`, a 404
gives `False`, a 503 propagates the `S3Error`. -/
theorem c10_contains_membership_witness :
    s3contains trivialCtx transportOk (some (("k").data)) = .ok true
    ∧ s3contains trivialCtx transport404 (some (("k").data)) = .ok false
    ∧ s3contains trivialCtx transport503 (some (("k").data)) =
        .error (.s3 (s3error_from_urllib (some 503) none)) := by
  refine ⟨?_, ?_, ?_⟩
  · exact (c10_contains_membership trivialCtx transportOk
      (some (("k").data))).1
      { headers := [], metadata := [], size := none, mimetype := none,
        date := none, modify := none } rfl
  · exact (c10_contains_membership trivialCtx transport404
      (some (("k").data))).2.1 (some (("k").data)) rfl
  · exact (c10_contains_membership trivialCtx transport503
      (some (("k").data))).2.2 (.s3 (s3error_from_urllib (some 503) none))
      rfl (fun k' h => by cases h)

/-! ## C1: 404 translation across `info`, `get`, `delete` -/

/-- C1 evaluation at the failing input (a transport reporting 404): `info`
does translate the 404 `S3Error` to `KeyError`, but `get` has no 404
handling at all and surfaces the `S3Error` itself, and `delete` never
reaches its 404 branch because it first calls `resp.close()` on the caught
`S3Error`, which has no `close` attribute, raising `AttributeError`. -/
theorem c1_404_divergence :
    s3info trivialCtx transport404 (some (("key").data)) =
      .error (.keyError (some (("key").data)))
    ∧ s3get trivialCtx transport404 (some (("key").data)) =
        .error (.s3 { code := some 404, msg := ("HTTP error").data })
    ∧ s3delete trivialCtx transport404 (some (("key").data)) =
        .error .attributeError := by
  exact ⟨rfl, rfl, rfl⟩

/-! ## C7: ISO-8601 timestamp decoding -/

theorem digitChar_isDigit (n : Nat) (h : n ≤ 9) :
    (digitChar n).isDigit = true := by
  interval_cases n <;> decide

theorem digitVal_digitChar (n : Nat) (h : n ≤ 9) :
    digitVal (digitChar n) = n := by
  interval_cases n <;> decide

theorem digitChar_eq_zero (n : Nat) (h : n ≤ 9) (he : digitChar n = '0') :
    n = 0 := by
  interval_cases n <;> first | rfl | (exact absurd he (by decide))

theorem parseY_pad4 (y : Nat) (rest : Str) (hy : y ≤ 9999) :
    parseY (pad4 y ++ rest) = some (y, rest) := by
  have h1 : y / 1000 ≤ 9 := by omega
  have h2 : y / 100 % 10 ≤ 9 := by omega
  have h3 : y / 10 % 10 ≤ 9 := by omega
  have h4 : y % 10 ≤ 9 := by omega
  have hv : digitVal (digitChar (y / 1000)) * 1000 +
      digitVal (digitChar (y / 100 % 10)) * 100 +
      digitVal (digitChar (y / 10 % 10)) * 10 +
      digitVal (digitChar (y % 10)) = y := by
    rw [digitVal_digitChar _ h1, digitVal_digitChar _ h2,
      digitVal_digitChar _ h3, digitVal_digitChar _ h4]
    omega
  simp [pad4, parseY, digitChar_isDigit _ h1, digitChar_isDigit _ h2,
    digitChar_isDigit _ h3, digitChar_isDigit _ h4, hv]

theorem parseMonth_pad2 (mo : Nat) (rest : Str) (h1 : 1 ≤ mo) (h2 : mo ≤ 12) :
    parseMonth (pad2 mo ++ rest) = some (mo, rest) := by
  interval_cases mo <;> rfl

theorem parseDay_pad2 (d : Nat) (rest : Str) (h1 : 1 ≤ d) (h2 : d ≤ 31) :
    parseDay (pad2 d ++ rest) = some (d, rest) := by
  interval_cases d <;> rfl

theorem parseHour_pad2 (h : Nat) (rest : Str) (h2 : h ≤ 23) :
    parseHour (pad2 h ++ rest) = some (h, rest) := by
  interval_cases h <;> rfl

theorem parseMinute_pad2 (m : Nat) (rest : Str) (h2 : m ≤ 59) :
    parseMinute (pad2 m ++ rest) = some (m, rest) := by
  interval_cases m <;> rfl

theorem parseSecond_pad2 (s : Nat) (rest : Str) (h2 : s ≤ 59) :
    parseSecond (pad2 s ++ rest) = some (s, rest) := by
  interval_cases s <;> rfl

theorem daysInMonth_le_31 (y m : Nat) : daysInMonth y m ≤ 31 := by
  unfold daysInMonth
  split_ifs <;> omega

theorem expectLit_single (c : Char) (rest : Str) :
    expectLit [c] (c :: rest) = some rest := by
  simp [expectLit]

/-- C7 counterexample: the claim's own example `2009-01-01T12:00:00.500Z`
(well-formed ISO-8601 with milliseconds) does NOT parse — `iso8601_fmt` spells
the millisecond part as the literal `.000`, so `strptime` raises
`ValueError` — while the all-zero-millisecond variant does parse. -/
theorem c7_counterexample :
    _iso8601_dt (("2009-01-01T12:00:00.500Z").data) = none ∧
    _iso8601_dt (("2009-01-01T12:00:00.000Z").data) =
      some { year := 2009, month := 1, day := 1, hour := 12, minute := 0,
             second := 0 } := by
  exact ⟨rfl, rfl⟩

/-- C7 (amended): `_iso8601_dt` parses a last-modified string to the
corresponding UTC instant only when the millisecond digits are literally
`000` (the instant carries second precision, milliseconds dropped); for any
other millisecond value the format allows, it raises `ValueError` instead of
parsing. -/
theorem c7_iso8601_parsing :
    (∀ y mo d h mi s : Nat, 1 ≤ y → y ≤ 9999 → 1 ≤ mo → mo ≤ 12 → 1 ≤ d →
      d ≤ daysInMonth y mo → h ≤ 23 → mi ≤ 59 → s ≤ 59 →
      _iso8601_dt (fmtIso8601Ms y mo d h mi s 0) =
        some { year := y, month := mo, day := d, hour := h, minute := mi,
               second := s })
    ∧ (∀ y mo d h mi s ms : Nat, y ≤ 9999 → 1 ≤ mo → mo ≤ 12 → 1 ≤ d →
        d ≤ 31 → h ≤ 23 → mi ≤ 59 → s ≤ 59 → ms ≤ 999 → ms ≠ 0 →
        _iso8601_dt (fmtIso8601Ms y mo d h mi s ms) = none) := by
  constructor
  · intro y mo d h mi s hy1 hy hmo1 hmo hd1 hd hh hmi hs
    have hd31 : d ≤ 31 := le_trans hd (daysInMonth_le_31 y mo)
    have hlit : expectLit ((".000Z").data) ('.' :: (pad3 0 ++ ['Z'])) =
        some [] := rfl
    simp only [_iso8601_dt, fmtIso8601Ms, parseY_pad4 _ _ hy,
      expectLit_single, parseMonth_pad2 _ _ hmo1 hmo,
      parseDay_pad2 _ _ hd1 hd31, parseHour_pad2 _ _ hh,
      parseMinute_pad2 _ _ hmi, parseSecond_pad2 _ _ hs, hlit]
    simp [hy1, hd, hh, hmi, hs]
  · intro y mo d h mi s ms hy hmo1 hmo hd1 hd31 hh hmi hs hms hms0
    have h1 : ms / 100 ≤ 9 := by omega
    have h2 : ms / 10 % 10 ≤ 9 := by omega
    have h3 : ms % 10 ≤ 9 := by omega
    have hcond : ¬ (List.take ((".000Z").data.length)
        ('.' :: digitChar (ms / 100) :: digitChar (ms / 10 % 10) ::
          digitChar (ms % 10) :: 'Z' :: ([] : Str)) = (".000Z").data) := by
      intro he
      simp only [List.take] at he
      simp at he
      obtain ⟨e1, e2, e3⟩ := he
      have z1 := digitChar_eq_zero _ h1 e1
      have z2 := digitChar_eq_zero _ h2 e2
      have z3 := digitChar_eq_zero _ h3 e3
      omega
    have hlit : expectLit ((".000Z").data) ('.' :: (pad3 ms ++ ['Z'])) =
        none := by
      simp only [expectLit, pad3, List.cons_append, List.nil_append]
      rw [if_neg hcond]
    simp only [_iso8601_dt, fmtIso8601Ms, parseY_pad4 _ _ hy,
      expectLit_single, parseMonth_pad2 _ _ hmo1 hmo,
      parseDay_pad2 _ _ hd1 hd31, parseHour_pad2 _ _ hh,
      parseMinute_pad2 _ _ hmi, parseSecond_pad2 _ _ hs, hlit]

/-- Witness for C7's amended theorem: 2008-02-29 23:59:59 (a leap-year date)
parses with `000` milliseconds, and fails with `500` milliseconds. -/
theorem c7_iso8601_parsing_witness :
    _iso8601_dt (fmtIso8601Ms 2008 2 29 23 59 59 0) =
      some { year := 2008, month := 2, day := 29, hour := 23, minute := 59,
             second := 59 } ∧
    _iso8601_dt (fmtIso8601Ms 2009 1 1 12 0 0 500) = none := by
  constructor
  · exact c7_iso8601_parsing.1 2008 2 29 23 59 59 (by decide) (by decide)
      (by decide) (by decide) (by decide) (by decide) (by decide) (by decide)
      (by decide)
  · exact c7_iso8601_parsing.2 2009 1 1 12 0 0 500 (by decide) (by decide)
      (by decide) (by decide) (by decide) (by decide) (by decide) (by decide)
      (by decide) (by decide)

/-! ## C4 groundwork -/

theorem firstIdx_nil (t : Str) : firstIdx [] t = some 0 := by
  cases t <;> simp [firstIdx]

theorem firstIdx_append_left (pat : Str) :
    ∀ (s t : Str) (p : Nat), firstIdx pat s = some p →
      firstIdx pat (s ++ t) = some p := by
  intro s
  induction s with
  | nil =>
    intro t p h
    simp only [firstIdx] at h
    split at h
    · rename_i hp
      cases h
      subst hp
      simpa using firstIdx_nil t
    · cases h
  | cons c s' ih =>
    intro t p h
    rw [List.cons_append]
    simp only [firstIdx] at h ⊢
    split at h
    · rename_i htake
      cases h
      have hlen : pat.length ≤ s'.length + 1 := by
        have hl := congrArg List.length htake
        simp [List.length_take] at hl
        omega
      have hcond : (c :: (s' ++ t)).take pat.length = pat := by
        have hsh : (c :: (s' ++ t)) = (c :: s') ++ t := rfl
        rw [hsh, List.take_append_of_le_length (by simpa using hlen), htake]
      rw [if_pos hcond]
    · rename_i htake
      rcases Option.map_eq_some'.1 h with ⟨q, hq, hpq⟩
      subst hpq
      have hlen : pat.length ≤ s'.length + 1 := by
        have := firstIdx_add_length_le pat s' q hq
        omega
      have hcond : (c :: (s' ++ t)).take pat.length =
          (c :: s').take pat.length := by
        have hsh : (c :: (s' ++ t)) = (c :: s') ++ t := rfl
        rw [hsh, List.take_append_of_le_length (by simpa using hlen)]
      rw [hcond, if_neg htake, ih t q hq]
      rfl

theorem firstIdx_append_extract (pat : Str) :
    ∀ (s t : Str) (p : Nat), firstIdx pat (s ++ t) = some p →
      p + pat.length ≤ s.length → firstIdx pat s = some p := by
  intro s
  induction s with
  | nil =>
    intro t p h hle
    simp only [List.length_nil, Nat.le_zero] at hle
    have hp : pat = [] := List.eq_nil_of_length_eq_zero (by omega)
    have hp0 : p = 0 := by omega
    subst hp
    subst hp0
    exact firstIdx_nil []
  | cons c s' ih =>
    intro t p h hle
    rw [List.cons_append] at h
    simp only [firstIdx] at h ⊢
    simp only [List.length_cons] at hle
    have hlen : pat.length ≤ (c :: s').length := by
      simp only [List.length_cons]
      omega
    have hcond : (c :: (s' ++ t)).take pat.length =
        (c :: s').take pat.length := by
      have hsh : (c :: (s' ++ t)) = (c :: s') ++ t := rfl
      rw [hsh, List.take_append_of_le_length hlen]
    rw [hcond] at h
    split at h
    · rename_i htake
      cases h
      rw [if_pos htake]
    · rename_i htake
      rcases Option.map_eq_some'.1 h with ⟨q, hq, hpq⟩
      subst hpq
      have hq' := ih t q hq (by omega)
      rw [if_neg htake, hq']
      rfl

theorem pySlice_append (s t : Str) (a b : Nat) (hb : b ≤ s.length) :
    pySlice (s ++ t) a b = pySlice s a b := by
  simp [pySlice, List.take_append_of_le_length hb]

theorem pySlice_length (s : Str) (a b : Nat) (hb : b ≤ s.length) :
    (pySlice s a b).length = b - a := by
  simp only [pySlice, List.length_drop, List.length_take]
  omega

theorem drainF_congr :
    ∀ (f : Nat) (s : Str), s.length ≤ f → drainF f s = drain s := by
  intro f
  induction f using Nat.strong_induction_on with
  | _ f ih =>
    intro s hs
    cases f with
    | zero =>
      have hnil : s = [] := List.eq_nil_of_length_eq_zero (by omega)
      subst hnil
      rfl
    | succ n =>
      rw [drain]
      rcases hsl : s.length with _ | m
      · have hnil : s = [] := List.eq_nil_of_length_eq_zero hsl
        subst hnil
        rfl
      · simp only [drainF]
        cases hclose : firstIdx contentsClose s with
        | none => rfl
        | some p =>
          simp only [hclose]
          cases hopen : firstIdx contentsOpen s with
          | none => rfl
          | some i =>
            simp only [hopen]
            cases howner : firstIdx ownerTag (pySlice s (i + 10) p) with
            | none => rfl
            | some j =>
              simp only [howner]
              cases hre : listdir_re_match ((pySlice s (i + 10) p).take j) with
              | none => rfl
              | some g =>
                simp only [hre]
                cases hiso : _iso8601_dt g.modify with
                | none => rfl
                | some dt =>
                  simp only [hiso]
                  have hlen := firstIdx_add_length_le contentsClose s p hclose
                  have hcl : contentsClose.length = 11 := rfl
                  rw [hcl] at hlen
                  have hd1 : (s.drop (p + 10)).length ≤ n := by
                    simp only [List.length_drop]
                    omega
                  have hd2 : (s.drop (p + 10)).length ≤ m := by
                    simp only [List.length_drop]
                    omega
                  rw [ih n (by omega) _ hd1, ih m (by omega) _ hd2]

theorem drain_close_none (buf : Str)
    (h : firstIdx contentsClose buf = none) : drain buf = .ok ([], buf) := by
  rw [drain]
  rcases hsl : buf.length with _ | n
  · rfl
  · simp [drainF, h]

theorem drain_noOpen (buf : Str) (p : Nat)
    (hc : firstIdx contentsClose buf = some p)
    (ho : firstIdx contentsOpen buf = none) :
    drain buf = .error .noOpen := by
  have hlen := firstIdx_add_length_le contentsClose buf p hc
  have hcl : contentsClose.length = 11 := rfl
  rw [hcl] at hlen
  obtain ⟨m, hm⟩ : ∃ m, buf.length = m + 1 := ⟨buf.length - 1, by omega⟩
  rw [drain, hm]
  simp [drainF, hc, ho]

theorem drain_step2 (buf : Str) (p i : Nat)
    (hc : firstIdx contentsClose buf = some p)
    (ho : firstIdx contentsOpen buf = some i) :
    drain buf =
      match firstIdx ownerTag (pySlice buf (i + 10) p) with
      | none => .error .noOwner
      | some j =>
        match listdir_re_match ((pySlice buf (i + 10) p).take j) with
        | none => .error (.unexpected (pySlice buf (i + 10) p))
        | some g =>
          match _iso8601_dt g.modify with
          | none => .error (.badTime g.modify)
          | some dt =>
            match drain (buf.drop (p + 10)) with
            | .error e => .error e
            | .ok (es, r) => .ok (mkEntry g dt :: es, r) := by
  have hlen := firstIdx_add_length_le contentsClose buf p hc
  have hcl : contentsClose.length = 11 := rfl
  rw [hcl] at hlen
  obtain ⟨m, hm⟩ : ∃ m, buf.length = m + 1 := ⟨buf.length - 1, by omega⟩
  rw [drain, hm]
  simp only [drainF, hc, ho]
  rw [drainF_congr m (buf.drop (p + 10))
    (by simp only [List.length_drop]; omega)]

theorem drain_split (t : Str) :
    ∀ (n : Nat) (w : Str), w.length ≤ n → ∀ (es : List Entry) (r : Str),
      drain (w ++ t) = .ok (es, r) →
      ∃ es₁ r₁ es₂, drain w = .ok (es₁, r₁) ∧
        drain (r₁ ++ t) = .ok (es₂, r) ∧ es = es₁ ++ es₂ := by
  intro n
  induction n with
  | zero =>
    intro w hw es r h
    have hwnil : w = [] := List.eq_nil_of_length_eq_zero (by omega)
    subst hwnil
    exact ⟨[], [], es, drain_close_none [] rfl, h, rfl⟩
  | succ n ih =>
    intro w hw es r h
    cases hclose : firstIdx contentsClose w with
    | none =>
      exact ⟨[], w, es, drain_close_none w hclose, h, rfl⟩
    | some p =>
      have hclose' : firstIdx contentsClose (w ++ t) = some p :=
        firstIdx_append_left _ _ _ _ hclose
      have hplen := firstIdx_add_length_le contentsClose w p hclose
      have hcl : contentsClose.length = 11 := rfl
      rw [hcl] at hplen
      cases hopen' : firstIdx contentsOpen (w ++ t) with
      | none =>
        rw [drain_noOpen _ _ hclose' hopen'] at h
        cases h
      | some i =>
        rw [drain_step2 _ _ _ hclose' hopen'] at h
        cases howner : firstIdx ownerTag (pySlice (w ++ t) (i + 10) p) with
        | none =>
          simp only [howner] at h
          cases h
        | some j =>
          have hj := firstIdx_add_length_le ownerTag _ j howner
          have how : ownerTag.length = 7 := rfl
          rw [how] at hj
          have hptot : p ≤ (w ++ t).length := by
            simp only [List.length_append]
            omega
          have hpl := pySlice_length (w ++ t) (i + 10) p hptot
          have hip : i + 10 < p := by omega
          have hiw : i + contentsOpen.length ≤ w.length := by
            have hol : contentsOpen.length = 10 := rfl
            rw [hol]
            omega
          have hopenw : firstIdx contentsOpen w = some i :=
            firstIdx_append_extract _ _ _ _ hopen' hiw
          have hpiecew : pySlice (w ++ t) (i + 10) p = pySlice w (i + 10) p :=
            pySlice_append w t (i + 10) p (by omega)
          rw [hpiecew] at howner
          cases hre : listdir_re_match ((pySlice w (i + 10) p).take j) with
          | none =>
            simp only [hpiecew, howner, hre] at h
            cases h
          | some g =>
            cases hiso : _iso8601_dt g.modify with
            | none =>
              simp only [hpiecew, howner, hre, hiso] at h
              cases h
            | some dt =>
              have hdrop : (w ++ t).drop (p + 10) = w.drop (p + 10) ++ t :=
                List.drop_append_of_le_length (by omega)
              simp only [hpiecew, howner, hre, hiso, hdrop] at h
              cases hrec : drain (w.drop (p + 10) ++ t) with
              | error e =>
                simp only [hrec] at h
                cases h
              | ok pr =>
                obtain ⟨es', r'⟩ := pr
                simp only [hrec, Except.ok.injEq, Prod.mk.injEq] at h
                obtain ⟨hes1, hr1⟩ := h
                subst hr1
                obtain ⟨es₁, r₁, es₂, hd1, hd2, hesplit⟩ :=
                  ih (w.drop (p + 10))
                    (by simp only [List.length_drop]; omega) es' r' hrec
                refine ⟨mkEntry g dt :: es₁, r₁, es₂, ?_, hd2, ?_⟩
                · rw [drain_step2 w p i hclose hopenw]
                  simp only [howner, hre, hiso, hd1]
                · rw [← hes1, hesplit]
                  rfl

theorem listdirGo_correct :
    ∀ (chunks : List Str) (buf : Str) (es : List Entry) (r : Str),
      (∀ c ∈ chunks, c ≠ []) →
      drain (buf ++ chunks.flatten) = .ok (es, r) →
      listdirGo chunks buf = .ok es := by
  intro chunks
  induction chunks with
  | nil =>
    intro buf es r hne h
    simp only [List.flatten_nil, List.append_nil] at h
    simp [listdirGo, h]
  | cons c cs ih =>
    intro buf es r hne h
    have hc : c ≠ [] := hne c (List.mem_cons_self c cs)
    rw [List.flatten_cons, ← List.append_assoc] at h
    obtain ⟨es₁, r₁, es₂, hd1, hd2, hes⟩ :=
      drain_split cs.flatten (buf ++ c).length (buf ++ c) le_rfl es r h
    subst hes
    have hrest := ih r₁ es₂ r (fun x hx => hne x (List.mem_cons_of_mem _ hx))
      hd2
    simp only [listdirGo, hd1, hrest, if_neg hc]


/-- C4: for every listing body that the parsing loop accepts (`drain body`
succeeds, i.e. the body is well formed) and every partition of that body
into (nonempty) chunks, `listdir` yields exactly the same finite sequence of
`(key, last-modified, etag, size)` entries, in document order, as
single-chunk delivery of the same body; and a record whose `<Owner>`-trimmed
content does not match the strict four-field `listdir_re` pattern raises the
explicit `ValueError("unexpected: ...")` rather than being skipped. -/
theorem c4_listdir_chunk_invariance :
    (∀ (body : Str) (es : List Entry) (r : Str) (chunks : List Str),
      drain body = .ok (es, r) →
      (∀ c ∈ chunks, c ≠ []) →
      chunks.flatten = body →
      listdir chunks = .ok es ∧ listdir [body] = .ok es)
    ∧ (∀ (buf : Str) (p i j : Nat),
        firstIdx contentsClose buf = some p →
        firstIdx contentsOpen buf = some i →
        firstIdx ownerTag (pySlice buf (i + 10) p) = some j →
        listdir_re_match ((pySlice buf (i + 10) p).take j) = none →
        drain buf = .error (.unexpected (pySlice buf (i + 10) p))) := by
  constructor
  · intro body es r chunks hdrain hne hflat
    constructor
    · show listdirGo chunks [] = .ok es
      apply listdirGo_correct chunks [] es r hne
      rw [List.nil_append, hflat]
      exact hdrain
    · by_cases hbody : body = []
      · subst hbody
        have h0 : drain ([] : Str) = .ok ([], []) := drain_close_none [] rfl
        rw [h0] at hdrain
        simp only [Except.ok.injEq, Prod.mk.injEq] at hdrain
        obtain ⟨hes, -⟩ := hdrain
        subst hes
        rfl
      · apply listdirGo_correct [body] [] es r
        · intro c hcm
          rw [List.mem_singleton] at hcm
          subst hcm
          exact hbody
        · rw [List.nil_append, List.flatten_cons, List.flatten_nil,
            List.append_nil]
          exact hdrain
  · intro buf p i j hc ho hw hre
    rw [drain_step2 buf p i hc ho]
    simp only [hw, hre]

/-- Witness for C4: a two-record body delivered whole, and split at
character 100 (mid-record), both yield the same two entries; a record with
no `<Size>` field raises the parse error. -/
theorem c4_listdir_chunk_invariance_witness :
    (listdir [listdirBody.take 100, listdirBody.drop 100] =
        .ok [{ key := ("k1").data,
               modify := { year := 2009, month := 1, day := 1, hour := 12,
                           minute := 0, second := 0 },
               etag := ("\"e1\"").data, size := 10 },
             { key := ("k2").data,
               modify := { year := 2010, month := 12, day := 31, hour := 23,
                           minute := 59, second := 59 },
               etag := ("e2").data, size := 7 }] ∧
      listdir [listdirBody] =
        .ok [{ key := ("k1").data,
               modify := { year := 2009, month := 1, day := 1, hour := 12,
                           minute := 0, second := 0 },
               etag := ("\"e1\"").data, size := 10 },
             { key := ("k2").data,
               modify := { year := 2010, month := 12, day := 31, hour := 23,
                           minute := 59, second := 59 },
               etag := ("e2").data, size := 7 }]) ∧
    drain listdirBadBody =
      .error (.unexpected (pySlice listdirBadBody 10 106)) := by
  constructor
  · exact c4_listdir_chunk_invariance.1 listdirBody _
      (("></ListBucketResult>").data) [listdirBody.take 100, listdirBody.drop 100]
      (by rfl) (by decide)
      (by rw [List.flatten_cons, List.flatten_cons, List.flatten_nil,
        List.append_nil, List.take_append_drop])
  · exact c4_listdir_chunk_invariance.2 listdirBadBody 106 0 80
      (by rfl) (by rfl) (by rfl) (by rfl)
